import Mathlib

/-!
# Verification of `SentinelHubStatDownloadClient`

A shallow embedding of `sentinelhub/download/sentinelhub_stat_client.py`:
the download orchestration for the Sentinel Hub Statistical API, covering
cached loading, detection of retriable per-interval errors, per-interval
retry, merging of retried results, and the conditional persistence of the
merged response.

Decoded JSON payloads are modelled by `JValue`; Python dictionaries are
association lists with first-match lookup (Python dict keys are unique, so
first-match agrees with dict semantics).  Network fetches (composed with
decoding) and the filesystem are oracles carried in a `Config`; the
side effects of a run (fetch count, read count, the two write sites) are
returned explicitly in an `Effects` record.
-/

namespace StatClient

/-- A decoded JSON value, the shape of data handled by the client. -/
inductive JValue where
  | null
  | bool (b : Bool)
  | num (n : Int)
  | str (s : String)
  | arr (items : List JValue)
  | obj (fields : List (String × JValue))

/-- First-match lookup in an association list, the model of Python
`dict[key]` access on a dict with unique keys. -/
def jget? (fields : List (String × JValue)) (key : String) : Option JValue :=
  (fields.find? (fun p => p.1 == key)).map Prod.snd

/-- Python `d.get(key)` on a value `d`: the outer `none` is an
`AttributeError` (`d` is not a dict), `some none` is a missing key
(Python `None`), `some (some v)` is a present key. -/
def dictGet : JValue → String → Option (Option JValue)
  | .obj fields, key => some (jget? fields key)
  | _, _ => none

@[simp] theorem dictGet_obj (fields : List (String × JValue)) (key : String) :
    dictGet (.obj fields) key = some (jget? fields key) := rfl

/-- Replace the value of `key` in an association list, keeping its
position, or append it when absent — Python dict item assignment. -/
def setAssoc : List (String × JValue) → String → JValue → List (String × JValue)
  | [], key, v => [(key, v)]
  | (k, old) :: rest, key, v =>
      if k = key then (k, v) :: rest else (k, old) :: setAssoc rest key v

/-- Python errors that the embedded code can raise. -/
inductive PyErr where
  /-- Validation failure raised by `request.raise_if_invalid`. -/
  | invalidRequest
  /-- Missing dictionary key. -/
  | keyError (key : String)
  /-- Index out of range (the first entry of an empty data list). -/
  | indexError
  /-- Attribute access (such as the `get` method) on a non-dict value. -/
  | attributeError
  /-- Operation on a value of the wrong type (e.g. a write to a `None` path). -/
  | typeError
  /-- Read of an absent file. -/
  | ioError
  /-- The no-retries-done `ValueError` raised after the retry loop. -/
  | noRetriesDone
deriving DecidableEq, Repr

/-- The class constant `_RETIRABLE_ERRORS` (sic), the fixed set of
retriable error types. -/
def _RETIRABLE_ERRORS : List String := ["EXECUTION_ERROR", "TIMEOUT"]

/-- The class constant `_RETRY_NUM`, the per-interval retry bound. -/
def _RETRY_NUM : Nat := 1

/-- The method `_has_retriable_error`: it reads the `type` field of the
`error` field via two `get` calls, the first with an empty-dict default,
and tests membership in `_RETIRABLE_ERRORS`.  Here `none` models the
`AttributeError` raised when `stat_info` (or its `error` value) is not a
dict; otherwise `some b` is the returned boolean.  A missing key gives
Python `None`, whose membership test against a list of strings is
`False`, as it is for any non-string `type`. -/
def has_retriable_error (stat_info : JValue) : Option Bool :=
  match dictGet stat_info "error" with
  | none => none
  | some errVal =>
    match dictGet (errVal.getD (.obj [])) "type" with
    | none => none
    | some errorType =>
      some (match errorType with
        | some (.str s) => _RETIRABLE_ERRORS.contains s
        | _ => false)

/-- An interval entry is well-shaped when it is a dict whose `error`
value, if present, is itself a dict. -/
def WellShapedEntry (stat_info : JValue) : Prop :=
  (∃ fields, stat_info = JValue.obj fields) ∧
    (∀ fields ev, stat_info = JValue.obj fields → jget? fields "error" = some ev →
      ∃ efields, ev = JValue.obj efields)

/-- The shape that `_has_retriable_error` accepts: a dict carrying an
`error` dict whose `type` is one of the retriable error strings. -/
def RetriableShape (stat_info : JValue) : Prop :=
  ∃ fields efields t, stat_info = JValue.obj fields ∧
    jget? fields "error" = some (JValue.obj efields) ∧
    jget? efields "type" = some (JValue.str t) ∧
    t ∈ _RETIRABLE_ERRORS

theorem has_retriable_error_eq_true_iff (stat_info : JValue) :
    has_retriable_error stat_info = some true ↔ RetriableShape stat_info := by
  constructor
  · intro h
    cases stat_info with
    | obj fields =>
        rw [has_retriable_error] at h
        simp only [dictGet_obj] at h
        cases hev : jget? fields "error" with
        | none =>
            rw [hev] at h
            simp [jget?] at h
        | some ev =>
            rw [hev] at h
            cases ev with
            | obj efields =>
                simp only [Option.getD_some, dictGet_obj] at h
                cases hty : jget? efields "type" with
                | none => rw [hty] at h; simp at h
                | some ty =>
                    rw [hty] at h
                    cases ty with
                    | str s =>
                        simp only [Option.some.injEq] at h
                        refine ⟨fields, efields, s, rfl, hev, hty, ?_⟩
                        simpa using h
                    | null => simp at h
                    | bool b => simp at h
                    | num n => simp at h
                    | arr items => simp at h
                    | obj f => simp at h
            | null => simp [Option.getD_some, dictGet] at h
            | bool b => simp [Option.getD_some, dictGet] at h
            | num n => simp [Option.getD_some, dictGet] at h
            | str s => simp [Option.getD_some, dictGet] at h
            | arr items => simp [Option.getD_some, dictGet] at h
    | null => rw [has_retriable_error] at h; simp [dictGet] at h
    | bool b => rw [has_retriable_error] at h; simp [dictGet] at h
    | num n => rw [has_retriable_error] at h; simp [dictGet] at h
    | str s => rw [has_retriable_error] at h; simp [dictGet] at h
    | arr items => rw [has_retriable_error] at h; simp [dictGet] at h
  · rintro ⟨fields, efields, t, rfl, hev, hty, ht⟩
    rw [has_retriable_error]
    simp only [dictGet_obj]
    rw [hev]
    simp only [Option.getD_some, dictGet_obj]
    rw [hty]
    simpa using ht

theorem has_retriable_error_total_of_wellShaped (stat_info : JValue)
    (h : WellShapedEntry stat_info) : ∃ b, has_retriable_error stat_info = some b := by
  obtain ⟨⟨fields, rfl⟩, herr⟩ := h
  rw [has_retriable_error]
  simp only [dictGet_obj]
  cases hev : jget? fields "error" with
  | none => exact ⟨false, by simp [jget?]⟩
  | some ev =>
      obtain ⟨efields, rfl⟩ := herr fields ev rfl hev
      simp only [Option.getD_some, dictGet_obj]
      cases hty : jget? efields "type" with
      | none => exact ⟨false, by simp⟩
      | some ty => cases ty <;> simp

/-- Python `retried_responses.get(index, default)`: first-match lookup of
an interval index in the retry-outcome dict. -/
def lookupIndex (m : List (Nat × JValue)) (i : Nat) : Option JValue :=
  (m.find? (fun p => p.1 == i)).map Prod.snd

/-- The merge step of `_single_download`: the list comprehension that
enumerates the data sequence and replaces each entry whose index is a
key of `retried_responses` with its retried outcome. -/
def mergeRetried (data : List JValue) (retried : List (Nat × JValue)) : List JValue :=
  data.enum.map (fun p => (lookupIndex retried p.1).getD p.2)

/-- Access the `data` item of a composite response and iterate it:
`KeyError` when the key is absent, `TypeError` when the response or its
`data` value is not of the required type. -/
def getData (stats_response : JValue) : Except PyErr (List JValue) :=
  match stats_response with
  | .obj fields =>
    match jget? fields "data" with
    | some (.arr items) => .ok items
    | some _ => .error .typeError
    | none => .error (.keyError "data")
  | _ => .error .typeError

/-- The first entry of the `data` item of a decoded response: the single
entry of a per-interval sub-request. -/
def data0 (stat_response : JValue) : Except PyErr JValue :=
  match getData stat_response with
  | .error e => .error e
  | .ok [] => .error .indexError
  | .ok (stat_info :: _) => .ok stat_info

/-- The surface of the `DownloadRequest` object consumed by the client.
`valid` is modelled from the spec: `raise_if_invalid` performs the
request's structural validation (its body lives outside this module);
it raises `InvalidRequestError` exactly when the request is structurally
invalid, which we record as the opaque boolean `valid`. -/
structure Request where
  valid : Bool
  save_response : Bool
  return_data : Bool
  request_path : Option String
  response_path : Option String
  /-- The descriptor `request.get_request_params` produces with metadata
  included. -/
  request_info : JValue
  /-- The mutable `request.post_values`, holding the aggregation time
  range. -/
  post_values : JValue

/-- The client's environment: the `redownload` flag, the filesystem
(path to stored decoded content; `none` = file absent), and the network
oracle `execute_download` composed with `decode_data_function` — the
`Nat` argument numbers repeated fetches of the same request so retries
may observe different responses. -/
structure Config where
  redownload : Bool
  fs : String → Option JValue
  execute_download : Request → Nat → JValue

/-- The side effects of one `_single_download` run: network fetch count,
file read count, and the two write sites (request descriptor, response). -/
structure Effects where
  fetches : Nat
  reads : Nat
  descWrite : Option (String × JValue)
  respWrite : Option (String × JValue)

/-- The no-effect record of the early-return paths. -/
def noEffects : Effects := ⟨0, 0, none, none⟩

/-- The loop body of `_execute_single_stat_download`, structurally
recursive on the `remaining` iterations of the retry range
(`remaining = retry_num - retry_count`).  Each iteration fetches and
decodes, extracts the first entry of the decoded data, and returns it
when it has no retriable error or the budget's last iteration is
reached; exhausting the loop reaches the no-retries-done `ValueError`.
The second component counts the fetches performed. -/
def statLoopAux (cfg : Config) (request : Request) (retry_num : Nat) :
    Nat → Nat → Except PyErr JValue × Nat
  | 0, _ => (.error .noRetriesDone, 0)
  | remaining + 1, retry_count =>
    let stat_response := cfg.execute_download request retry_count
    match data0 stat_response with
    | .error e => (.error e, 1)
    | .ok stat_info =>
      match has_retriable_error stat_info with
      | none => (.error .attributeError, 1)
      | some retriable =>
        if !retriable || retry_count == retry_num - 1 then (.ok stat_info, 1)
        else
          let r := statLoopAux cfg request retry_num remaining (retry_count + 1)
          (r.1, r.2 + 1)

/-- The method `_execute_single_stat_download`, generalised over the class constant
`_RETRY_NUM` as the spec's retry bound.  Returns the extracted interval
entry (or the propagated error) together with the number of fetches. -/
def execute_single_stat_download (cfg : Config) (request : Request) (retry_num : Nat) :
    Except PyErr JValue × Nat :=
  statLoopAux cfg request retry_num retry_num 0

/-- Build one `IntervalSubRequest`: deep-copy the request and assign the
given interval to the `timeRange` item of the `aggregation` item of its
`post_values`.  Deep copy of an immutable value is the value itself; the
nested item assignment fails when `post_values` is not a dict
(`TypeError`) or has no `aggregation` key (`KeyError`). -/
def set_time_range (request : Request) (time_interval : JValue) : Except PyErr Request :=
  match request.post_values with
  | .obj fields =>
    match jget? fields "aggregation" with
    | some (.obj aggFields) =>
        .ok { request with
              post_values :=
                .obj (setAssoc fields "aggregation"
                  (.obj (setAssoc aggFields "timeRange" time_interval))) }
    | some _ => .error .typeError
    | none => .error (.keyError "aggregation")
  | _ => .error .typeError

/-- Execute the constructed sub-requests in order, failing fast on the
first error (the pool join re-raises it); the second component counts the
fetches of the completed prefix. -/
def runSubs (cfg : Config) (retry_num : Nat) :
    List Request → Except PyErr (List JValue) × Nat
  | [] => (.ok [], 0)
  | r :: rest =>
    let first := execute_single_stat_download cfg r retry_num
    match first.1 with
    | .error e => (.error e, first.2)
    | .ok v =>
      let tail := runSubs cfg retry_num rest
      match tail.1 with
      | .error e => (.error e, first.2 + tail.2)
      | .ok vs => (.ok (v :: vs), first.2 + tail.2)

/-- The sub-request construction loop of `_download_per_interval`: one
`IntervalSubRequest` per failed interval, in the mapping's iteration
order, failing at the first ill-shaped `post_values`. -/
def buildSubs (request : Request) : List (Nat × JValue) → Except PyErr (List Request)
  | [] => .ok []
  | p :: rest =>
    match set_time_range request p.2 with
    | .error e => .error e
    | .ok r =>
      match buildSubs request rest with
      | .error e => .error e
      | .ok rs => .ok (r :: rs)

/-- The method `_download_per_interval`: build one sub-request per
failed interval in the mapping's iteration order, execute them, and zip
the outcomes back with the mapping's keys by position. -/
def download_per_interval (cfg : Config) (request : Request)
    (time_intervals : List (Nat × JValue)) : Except PyErr (List (Nat × JValue)) × Nat :=
  match buildSubs request time_intervals with
  | .error e => (.error e, 0)
  | .ok interval_requests =>
    let subs := runSubs cfg _RETRY_NUM interval_requests
    match subs.1 with
    | .error e => (.error e, subs.2)
    | .ok stat_info_responses =>
      (.ok ((time_intervals.map Prod.fst).zip stat_info_responses), subs.2)

/-- The end-to-end outcome of retrying one failed interval: build the
sub-request for its interval spec, then execute it. -/
def subOutcome (cfg : Config) (request : Request) (time_interval : JValue) :
    Except PyErr JValue :=
  match set_time_range request time_interval with
  | .error e => .error e
  | .ok r => (execute_single_stat_download cfg r _RETRY_NUM).1

/-- Line 31 of `_single_download`: a download is required when
`redownload` is forced, the response path is unset, or no file exists at
the response path. -/
def download_required (cfg : Config) (request : Request) : Bool :=
  cfg.redownload ||
    match request.response_path with
    | none => true
    | some p => !(cfg.fs p).isSome

/-- Lines 32–36 of `_single_download`: fetch-and-decode when a download
is required, else load the cached response.  Returns the decoded
response with the fetch and read counts. -/
def fetchOrLoad (cfg : Config) (request : Request) : Except PyErr JValue × Nat × Nat :=
  if download_required cfg request then
    (.ok (cfg.execute_download request 0), 1, 0)
  else
    match request.response_path with
    | some p =>
      match cfg.fs p with
      | some v => (.ok v, 0, 1)
      | none => (.error .ioError, 0, 1)
    | none => (.error .ioError, 0, 0)

/-- The failed-interval scan of `_single_download`: for every entry with
a retriable error, record its index and its `interval` field. -/
def scanFailures : List JValue → Nat → Except PyErr (List (Nat × JValue))
  | [], _ => .ok []
  | stat_info :: rest, index =>
    match has_retriable_error stat_info with
    | none => .error .attributeError
    | some true =>
      match stat_info with
      | .obj fields =>
        match jget? fields "interval" with
        | some interval =>
          match scanFailures rest (index + 1) with
          | .error e => .error e
          | .ok tail => .ok ((index, interval) :: tail)
        | none => .error (.keyError "interval")
      | _ => .error .typeError
    | some false => scanFailures rest (index + 1)

/-- Line 46 of `_single_download`: the sum, over the retried outcomes,
of the indicator that the outcome has no `error` key. -/
def countSucceeded : List (Nat × JValue) → Except PyErr Nat
  | [] => .ok 0
  | (_, stat_info) :: rest =>
    match stat_info with
    | .obj fields =>
      match countSucceeded rest with
      | .error e => .error e
      | .ok n => .ok ((if (jget? fields "error").isNone then 1 else 0) + n)
    | _ => .error .typeError

/-- The item assignment replacing the `data` field of the composite
response with the merged sequence. -/
def setData (stats_response : JValue) (newData : List JValue) : JValue :=
  match stats_response with
  | .obj fields => .obj (setAssoc fields "data" (.arr newData))
  | other => other

/-- Lines 43–50 of `_single_download`: when failures were found, retry
them, count the retried outcomes without an `error` key, and merge them
back by index.  Returns the (possibly merged) response with the
succeeded-interval count, plus the sub-request fetch count. -/
def retryPhase (cfg : Config) (request : Request) (stats_response : JValue)
    (data : List JValue) (failed : List (Nat × JValue)) :
    Except PyErr (JValue × Nat) × Nat :=
  if failed.isEmpty then (.ok (stats_response, 0), 0)
  else
    match download_per_interval cfg request failed with
    | (.error e, n) => (.error e, n)
    | (.ok retried_responses, n) =>
      match countSucceeded retried_responses with
      | .error e => (.error e, n)
      | .ok n_succeeded =>
        (.ok (setData stats_response (mergeRetried data retried_responses), n_succeeded), n)

/-- Lines 52–54 of `_single_download`: the request-descriptor write,
performed when a descriptor path is configured, the response is being
saved, and the descriptor is forced or absent. -/
def descriptorWrite (cfg : Config) (request : Request) : Option (String × JValue) :=
  match request.request_path with
  | some rp =>
    if request.save_response && (cfg.redownload || !(cfg.fs rp).isSome) then
      some (rp, request.request_info)
    else none
  | none => none

/-- The method `_single_download`: the full orchestration.  The first component is
the returned value (`None` or the composite response) or the propagated
error; the second records the run's side effects. -/
def single_download (cfg : Config) (request : Request) :
    Except PyErr (Option JValue) × Effects :=
  if !request.valid then (.error .invalidRequest, noEffects)
  else if !(request.save_response || request.return_data) then (.ok none, noEffects)
  else
    match fetchOrLoad cfg request with
    | (.error e, nf, nr) => (.error e, ⟨nf, nr, none, none⟩)
    | (.ok stats_response, nf, nr) =>
      match getData stats_response with
      | .error e => (.error e, ⟨nf, nr, none, none⟩)
      | .ok data =>
        match scanFailures data 0 with
        | .error e => (.error e, ⟨nf, nr, none, none⟩)
        | .ok failed_time_intervals =>
          match retryPhase cfg request stats_response data failed_time_intervals with
          | (.error e, nsf) => (.error e, ⟨nf + nsf, nr, none, none⟩)
          | (.ok (stats_response', n_succeeded), nsf) =>
            let dw := descriptorWrite cfg request
            if request.save_response && (download_required cfg request || decide (0 < n_succeeded)) then
              match request.response_path with
              | some p =>
                ((if request.return_data then .ok (some stats_response') else .ok none),
                 ⟨nf + nsf, nr, dw, some (p, stats_response')⟩)
              | none => (.error .typeError, ⟨nf + nsf, nr, dw, none⟩)
            else
              ((if request.return_data then .ok (some stats_response') else .ok none),
               ⟨nf + nsf, nr, dw, none⟩)

/-- The decoded composite response a run works on: freshly fetched when a
download is required, loaded from the cache otherwise. -/
def statsResponseOf (cfg : Config) (request : Request) : Except PyErr JValue :=
  (fetchOrLoad cfg request).1

/-- The retry phase's outcome for a run: the (possibly merged) composite
response paired with the succeeded-interval count. -/
def retryPhaseOf (cfg : Config) (request : Request) : Except PyErr (JValue × Nat) × Nat :=
  match statsResponseOf cfg request with
  | .error e => (.error e, 0)
  | .ok sr =>
    match getData sr with
    | .error e => (.error e, 0)
    | .ok data =>
      match scanFailures data 0 with
      | .error e => (.error e, 0)
      | .ok failed => retryPhase cfg request sr data failed

/-- The count `n_succeeded_intervals` of a run. -/
def nSucceededOf (cfg : Config) (request : Request) : Except PyErr Nat :=
  (retryPhaseOf cfg request).1.map Prod.snd

/-- The (possibly merged) composite response of a run. -/
def finalStatsOf (cfg : Config) (request : Request) : Except PyErr JValue :=
  (retryPhaseOf cfg request).1.map Prod.fst

/-- Apply one optional write to the filesystem. -/
def applyWrite (fs : String → Option JValue) : Option (String × JValue) →
    String → Option JValue
  | none => fs
  | some (p, v) => fun q => if q = p then some v else fs q

/-- The filesystem after a run: the descriptor write, then the response
write. -/
def applyEffects (fs : String → Option JValue) (eff : Effects) : String → Option JValue :=
  applyWrite (applyWrite fs eff.descWrite) eff.respWrite

/-- The environment of a second `_single_download` call: the same
configuration acting on the filesystem the first call left behind. -/
def secondRun (cfg : Config) (request : Request) : Config :=
  { cfg with fs := applyEffects cfg.fs (single_download cfg request).2 }

/-- A sample one-interval success response: a `data` array holding one
empty object. -/
def okResponse : JValue := .obj [("data", .arr [.obj []])]

/-- A sample request whose `post_values` carry an aggregation time range. -/
def sampleRequest : Request :=
  { valid := true, save_response := true, return_data := true,
    request_path := none, response_path := none,
    request_info := .null,
    post_values := .obj [("aggregation", .obj [("timeRange", .null)])] }

/-- A sample environment that always fetches `okResponse`. -/
def sampleConfig : Config :=
  { redownload := false, fs := fun _ => none,
    execute_download := fun _ _ => okResponse }

/-- A structurally valid request that neither saves nor returns data. -/
def nullPurposeRequest : Request :=
  { sampleRequest with save_response := false, return_data := false }

/-- A structurally invalid request. -/
def invalidSampleRequest : Request :=
  { sampleRequest with valid := false }

/-- A per-interval entry carrying a retriable `TIMEOUT` error. -/
def timeoutEntry : JValue :=
  .obj [("interval", .str "2020-01-01"), ("error", .obj [("type", .str "TIMEOUT")])]

/-- A cached composite response whose second interval failed. -/
def cachedResponse : JValue := .obj [("data", .arr [.obj [], timeoutEntry])]

/-- A request with a configured response path. -/
def cachedRequest : Request :=
  { sampleRequest with response_path := some "response.json" }

/-- An environment holding `cachedResponse` at the response path, whose
fresh fetches all succeed. -/
def retryConfig : Config :=
  { redownload := false,
    fs := fun p => if p = "response.json" then some cachedResponse else none,
    execute_download := fun _ _ => okResponse }

/-- An environment holding a failure-free cached response at the
response path. -/
def cleanConfig : Config :=
  { redownload := false,
    fs := fun p => if p = "response.json" then some okResponse else none,
    execute_download := fun _ _ => okResponse }

end StatClient

namespace StatClient

/-- C1: the merge step of `_single_download` preserves the length of the
`data` sequence; a retried index holds its retried outcome, every other
index its original entry. -/
theorem mergeRetried_preserves (data : List JValue) (retried : List (Nat × JValue)) :
    (mergeRetried data retried).length = data.length ∧
    (∀ i v, lookupIndex retried i = some v → i < data.length →
      (mergeRetried data retried)[i]? = some v) ∧
    (∀ i, lookupIndex retried i = none →
      (mergeRetried data retried)[i]? = data[i]?) := by
  refine ⟨by simp [mergeRetried], ?_, ?_⟩
  · intro i v hl hi
    simp [mergeRetried, List.getElem?_eq_getElem hi, hl]
  · intro i hl
    rcases Nat.lt_or_ge i data.length with hi | hi
    · simp [mergeRetried, List.getElem?_eq_getElem hi, hl]
    · have h1 : data[i]? = none := List.getElem?_eq_none hi
      have h2 : (mergeRetried data retried)[i]? = none := by
        apply List.getElem?_eq_none
        simpa [mergeRetried] using hi
      rw [h1, h2]

theorem getData_ne_noRetries (v : JValue) : getData v ≠ .error .noRetriesDone := by
  cases v with
  | obj fields =>
    rcases h : jget? fields "data" with _ | d
    · simp [getData, h]
    · cases d <;> simp [getData, h]
  | null => simp [getData]
  | bool b => simp [getData]
  | num n => simp [getData]
  | str s => simp [getData]
  | arr items => simp [getData]

theorem data0_ne_noRetries (v : JValue) : data0 v ≠ .error .noRetriesDone := by
  have hg := getData_ne_noRetries v
  rw [data0]
  rcases h : getData v with e | l
  · rw [h] at hg
    simpa using hg
  · cases l <;> simp

/-- Invariant of the retry loop: started strictly inside the budget it
never reaches the fall-through, and under well-shaped decoded attempts it
returns `data[0]` of one of the remaining attempts. -/
theorem statLoopAux_spec (cfg : Config) (request : Request) (retry_num : Nat) :
    ∀ remaining retry_count, retry_count + remaining = retry_num → 1 ≤ remaining →
      (statLoopAux cfg request retry_num remaining retry_count).1 ≠
          Except.error PyErr.noRetriesDone ∧
      ((∀ k, retry_count ≤ k → k < retry_num →
          ∃ v, data0 (cfg.execute_download request k) = Except.ok v ∧
            (has_retriable_error v).isSome = true) →
        ∃ k, retry_count ≤ k ∧ k < retry_num ∧
          (statLoopAux cfg request retry_num remaining retry_count).1 =
            data0 (cfg.execute_download request k)) := by
  intro remaining
  induction remaining with
  | zero => intro rc _ h1; exact absurd h1 (by omega)
  | succ m ih =>
    intro rc hsum _
    rcases hd : data0 (cfg.execute_download request rc) with e | stat_info
    · have hne := data0_ne_noRetries (cfg.execute_download request rc)
      rw [hd] at hne
      refine ⟨by simp only [statLoopAux, hd]; exact hne, ?_⟩
      intro hshape
      obtain ⟨v, hv, _⟩ := hshape rc le_rfl (by omega)
      rw [hd] at hv
      exact absurd hv (by simp)
    · rcases hr : has_retriable_error stat_info with _ | retriable
      · refine ⟨by simp [statLoopAux, hd, hr], ?_⟩
        intro hshape
        obtain ⟨v, hv, hb⟩ := hshape rc le_rfl (by omega)
        rw [hd] at hv
        obtain rfl : stat_info = v := by injection hv
        rw [hr] at hb
        simp at hb
      · cases hcond : (!retriable || rc == retry_num - 1) with
        | true =>
          refine ⟨by simp [statLoopAux, hd, hr, hcond], ?_⟩
          intro _
          exact ⟨rc, le_rfl, by omega, by simp [statLoopAux, hd, hr, hcond]⟩
        | false =>
          have hm : 1 ≤ m := by
            rcases Nat.eq_zero_or_pos m with rfl | h
            · exfalso
              have hrc : rc = retry_num - 1 := by omega
              simp [hrc] at hcond
            · exact h
          have ihm := ih (rc + 1) (by omega) hm
          constructor
          · simp only [statLoopAux, hd, hr, hcond, Bool.false_eq_true, if_false]
            exact ihm.1
          · intro hshape
            obtain ⟨k, hk1, hk2, hk3⟩ := ihm.2 (fun k hka hkb => hshape k (by omega) hkb)
            refine ⟨k, by omega, hk2, ?_⟩
            simp only [statLoopAux, hd, hr, hcond, Bool.false_eq_true, if_false]
            exact hk3

/-- C6: for every sub-request and every retry bound of at least 1,
`_execute_single_stat_download` never reaches the no-retries-done
fall-through after the loop, and when every decoded attempt is
well-shaped it returns the first data entry of one of its decoded
attempts. -/
theorem execute_single_stat_download_returns (cfg : Config) (request : Request)
    (retry_num : Nat) (h : 1 ≤ retry_num) :
    (execute_single_stat_download cfg request retry_num).1 ≠
        Except.error PyErr.noRetriesDone ∧
    ((∀ k, k < retry_num →
        ∃ v, data0 (cfg.execute_download request k) = Except.ok v ∧
          (has_retriable_error v).isSome = true) →
      ∃ k, k < retry_num ∧
        (execute_single_stat_download cfg request retry_num).1 =
          data0 (cfg.execute_download request k)) := by
  have hs := statLoopAux_spec cfg request retry_num retry_num 0 (by omega) h
  refine ⟨hs.1, fun hshape => ?_⟩
  obtain ⟨k, _, hk2, hk3⟩ := hs.2 (fun k _ hkb => hshape k hkb)
  exact ⟨k, hk2, hk3⟩

/-- Witness for C6 at `retry_num = 1` on an always-succeeding oracle. -/
theorem execute_single_stat_download_returns_witness :
    ∃ k, k < 1 ∧
      (execute_single_stat_download sampleConfig sampleRequest 1).1 =
        data0 (sampleConfig.execute_download sampleRequest k) :=
  (execute_single_stat_download_returns sampleConfig sampleRequest 1 (by decide)).2
    (fun k _ => ⟨.obj [], rfl, rfl⟩)

theorem zip_map_fun {α β γ : Type} (f : α → β) (g : α → γ) :
    ∀ l : List α, (l.map f).zip (l.map g) = l.map (fun a => (f a, g a)) := by
  intro l
  induction l with
  | nil => rfl
  | cons a rest ih => simp [ih]

theorem buildSubs_eq (request : Request) (sub : Nat × JValue → Request) :
    ∀ tis, (∀ p ∈ tis, set_time_range request p.2 = .ok (sub p)) →
      buildSubs request tis = .ok (tis.map sub) := by
  intro tis
  induction tis with
  | nil => intro _; rfl
  | cons p rest ih =>
    intro h
    have hp := h p (by simp)
    have hr := ih (fun q hq => h q (by simp [hq]))
    simp [buildSubs, hp, hr]

theorem runSubs_eq (cfg : Config) (sub : Nat × JValue → Request) (w : Nat × JValue → JValue) :
    ∀ tis : List (Nat × JValue),
      (∀ p ∈ tis, (execute_single_stat_download cfg (sub p) _RETRY_NUM).1 = .ok (w p)) →
      (runSubs cfg _RETRY_NUM (tis.map sub)).1 = .ok (tis.map w) := by
  intro tis
  induction tis with
  | nil => intro _; rfl
  | cons p rest ih =>
    intro h
    have hp := h p (by simp)
    have hr := ih (fun q hq => h q (by simp [hq]))
    simp [runSubs, hp, hr]

/-- C3: `_download_per_interval` preserves the key set of the failed-index
mapping and associates each index, by position, with the outcome of
executing the sub-request built by deep-copying the request and
overwriting its aggregation `timeRange` with that index's interval spec. -/
theorem download_per_interval_assoc (cfg : Config) (request : Request)
    (tis : List (Nat × JValue)) (sub : Nat × JValue → Request) (w : Nat × JValue → JValue)
    (hne : tis ≠ [])
    (hsub : ∀ p ∈ tis, set_time_range request p.2 = .ok (sub p))
    (hw : ∀ p ∈ tis, (execute_single_stat_download cfg (sub p) _RETRY_NUM).1 = .ok (w p)) :
    (download_per_interval cfg request tis).1 =
        .ok (tis.map (fun p => (p.1, w p))) ∧
    ∀ out, (download_per_interval cfg request tis).1 = .ok out →
      out.map Prod.fst = tis.map Prod.fst := by
  have h1 := buildSubs_eq request sub tis hsub
  have h2 := runSubs_eq cfg sub w tis hw
  have hmain : (download_per_interval cfg request tis).1 =
      .ok (tis.map (fun p => (p.1, w p))) := by
    simp [download_per_interval, h1, h2, zip_map_fun]
  refine ⟨hmain, ?_⟩
  intro out hout
  rw [hmain] at hout
  injection hout with h
  subst h
  simp

/-- Witness for C3 on a singleton failed-interval map. -/
theorem download_per_interval_assoc_witness :
    (download_per_interval sampleConfig sampleRequest [(0, JValue.null)]).1 =
      .ok [(0, JValue.obj [])] :=
  (download_per_interval_assoc sampleConfig sampleRequest [(0, JValue.null)]
    (fun _ => sampleRequest) (fun _ => JValue.obj [])
    (by simp)
    (fun p hp => by simp only [List.mem_singleton] at hp; subst hp; rfl)
    (fun p hp => by simp only [List.mem_singleton] at hp; subst hp; rfl)).1

/-- Witness for C1 at a concrete response: three entries, index 1 retried. -/
theorem mergeRetried_preserves_witness :
    (mergeRetried [JValue.num 10, JValue.num 11, JValue.num 12] [(1, JValue.num 99)])[1]? =
        some (JValue.num 99) ∧
      (mergeRetried [JValue.num 10, JValue.num 11, JValue.num 12] [(1, JValue.num 99)])[2]? =
        ([JValue.num 10, JValue.num 11, JValue.num 12] : List JValue)[2]? :=
  ⟨(mergeRetried_preserves [JValue.num 10, JValue.num 11, JValue.num 12]
      [(1, JValue.num 99)]).2.1 1 (JValue.num 99) rfl (by decide),
   (mergeRetried_preserves [JValue.num 10, JValue.num 11, JValue.num 12]
      [(1, JValue.num 99)]).2.2 2 rfl⟩

/-- C5: `_has_retriable_error` accepts an entry exactly when it carries
an `error` dict whose `type` is in the fixed retriable set; every other
well-shaped entry (no `error` key, `error` without a `type`, or an error
of another type) is classified as not retriable. -/
theorem has_retriable_error_characterisation (stat_info : JValue) :
    (has_retriable_error stat_info = some true ↔ RetriableShape stat_info) ∧
    (WellShapedEntry stat_info → ¬ RetriableShape stat_info →
      has_retriable_error stat_info = some false) := by
  refine ⟨has_retriable_error_eq_true_iff stat_info, ?_⟩
  intro hws hnr
  obtain ⟨b, hb⟩ := has_retriable_error_total_of_wellShaped stat_info hws
  cases b with
  | true => exact absurd ((has_retriable_error_eq_true_iff stat_info).1 hb) hnr
  | false => exact hb

/-- Witness for C5: an `error` of a non-retriable type is not retriable. -/
theorem has_retriable_error_characterisation_witness :
    has_retriable_error
        (.obj [("error", .obj [("type", .str "BAD_REQUEST")])]) = some false := by
  refine (has_retriable_error_characterisation _).2 ⟨⟨_, rfl⟩, ?_⟩ ?_
  · intro fields ev hf hev
    injection hf with hf
    subst hf
    refine ⟨[("type", .str "BAD_REQUEST")], ?_⟩
    simpa [jget?] using hev.symm
  · rintro ⟨fields, efields, t, hf, hev, hty, ht⟩
    injection hf with hf
    subst hf
    rw [show jget? [("error", JValue.obj [("type", JValue.str "BAD_REQUEST")])] "error" =
        some (JValue.obj [("type", JValue.str "BAD_REQUEST")]) from rfl] at hev
    injection hev with hev
    injection hev with hev
    subst hev
    rw [show jget? [("type", JValue.str "BAD_REQUEST")] "type" =
        some (JValue.str "BAD_REQUEST") from rfl] at hty
    injection hty with hty
    injection hty with hty
    subst hty
    exact absurd ht (by decide)

theorem scanFailures_all_false :
    ∀ (data : List JValue) (i : Nat),
      (∀ si ∈ data, has_retriable_error si = some false) →
      scanFailures data i = .ok [] := by
  intro data
  induction data with
  | nil => intro i _; rfl
  | cons si rest ih =>
    intro i h
    have hsi := h si (by simp)
    have hr := ih (i + 1) (fun x hx => h x (by simp [hx]))
    simp [scanFailures, hsi, hr]

/-- C9: a structurally valid request that neither saves nor returns data
makes `_single_download` return `None` immediately, with no fetches,
reads, or writes. -/
theorem single_download_null_no_io (cfg : Config) (request : Request)
    (hv : request.valid = true) (hs : request.save_response = false)
    (hr : request.return_data = false) :
    single_download cfg request = (.ok none, noEffects) := by
  simp [single_download, hv, hs, hr]

/-- Witness for C9. -/
theorem single_download_null_no_io_witness :
    single_download sampleConfig nullPurposeRequest = (.ok none, noEffects) :=
  single_download_null_no_io sampleConfig nullPurposeRequest rfl rfl rfl

/-- C10: `raise_if_invalid` runs before the save/return purpose check: a
structurally invalid request propagates the validation error even with
neither flag set, and any non-error outcome implies structural validity. -/
theorem single_download_validates_first (cfg : Config) (request : Request) :
    (request.valid = false →
      single_download cfg request = (.error .invalidRequest, noEffects)) ∧
    (∀ r, (single_download cfg request).1 = .ok r → request.valid = true) := by
  constructor
  · intro hv
    simp [single_download, hv]
  · intro r hok
    cases hv : request.valid with
    | true => rfl
    | false => rw [show single_download cfg request = (.error .invalidRequest, noEffects) by
        simp [single_download, hv]] at hok; exact absurd hok (by simp)

/-- Witness for C10: an invalid request with neither flag set still
fails with the validation error. -/
theorem single_download_validates_first_witness :
    single_download sampleConfig
        { invalidSampleRequest with save_response := false, return_data := false } =
      (.error .invalidRequest, noEffects) :=
  (single_download_validates_first sampleConfig
    { invalidSampleRequest with save_response := false, return_data := false }).1 rfl

/-- Counterexample to C4 as stated: a structurally valid request with
neither `save_response` nor `return_data` set is processed without any
`InvalidRequestError`; `_single_download` returns `None`. -/
theorem no_purpose_not_an_error :
    nullPurposeRequest.valid = true ∧
    nullPurposeRequest.save_response = false ∧
    nullPurposeRequest.return_data = false ∧
    (single_download sampleConfig nullPurposeRequest).1 = .ok none ∧
    (single_download sampleConfig nullPurposeRequest).1 ≠
      .error .invalidRequest := by
  refine ⟨rfl, rfl, rfl, ?_, ?_⟩
  · simp [single_download, nullPurposeRequest, sampleRequest]
  · simp [single_download, nullPurposeRequest, sampleRequest]

/-- C4 (amended): a structurally valid request with neither flag set is
not an error: `_single_download` returns `None` before any network or
disk I/O, and `InvalidRequestError` is reserved for structural
invalidity. -/
theorem no_purpose_returns_none (cfg : Config) (request : Request)
    (hv : request.valid = true) (hs : request.save_response = false)
    (hr : request.return_data = false) :
    (single_download cfg request).1 = .ok none ∧
    (single_download cfg request).2 = noEffects := by
  simp [single_download, hv, hs, hr]

/-- Witness for the amended C4. -/
theorem no_purpose_returns_none_witness :
    (single_download cleanConfig nullPurposeRequest).1 = .ok none ∧
    (single_download cleanConfig nullPurposeRequest).2 = noEffects :=
  no_purpose_returns_none cleanConfig nullPurposeRequest rfl rfl rfl

/-- Decompose a run whose `n_succeeded_intervals` is defined into its
stage outcomes. -/
theorem nSucceeded_stages (cfg : Config) (request : Request) (n : Nat)
    (hn : nSucceededOf cfg request = .ok n) :
    ∃ sr data failed fstats,
      statsResponseOf cfg request = .ok sr ∧
      getData sr = .ok data ∧
      scanFailures data 0 = .ok failed ∧
      (retryPhase cfg request sr data failed).1 = .ok (fstats, n) := by
  rw [nSucceededOf, retryPhaseOf] at hn
  rcases hsr : statsResponseOf cfg request with e | sr
  · simp [hsr, Except.map] at hn
  · simp only [hsr] at hn
    rcases hgd : getData sr with e | data
    · simp [hgd, Except.map] at hn
    · simp only [hgd] at hn
      rcases hsc : scanFailures data 0 with e | failed
      · simp [hsc, Except.map] at hn
      · simp only [hsc] at hn
        rcases hrp : (retryPhase cfg request sr data failed).1 with e | q
        · simp [hrp, Except.map] at hn
        · obtain ⟨f0, n0⟩ := q
          simp only [hrp, Except.map] at hn
          injection hn with hn
          subst hn
          exact ⟨sr, data, failed, f0, rfl, hgd, hsc, hrp⟩

/-- C2: with `save_response` set and a configured response path, the
response file is written if and only if a download was required or at
least one retried interval succeeded; the write targets the response
path and carries the (possibly merged) composite response. -/
theorem response_write_iff_improved (cfg : Config) (request : Request) (p : String)
    (n : Nat) (hv : request.valid = true) (hs : request.save_response = true)
    (hp : request.response_path = some p)
    (hn : nSucceededOf cfg request = .ok n) :
    ((single_download cfg request).2.respWrite.isSome = true ↔
      (download_required cfg request = true ∨ 0 < n)) ∧
    (∀ q v, (single_download cfg request).2.respWrite = some (q, v) →
      q = p ∧ finalStatsOf cfg request = .ok v) := by
  obtain ⟨sr, data, failed, fstats, hsr, hgd, hsc, hrp⟩ := nSucceeded_stages cfg request n hn
  rcases hfl : fetchOrLoad cfg request with ⟨flE, nf, nr⟩
  have hflE : flE = .ok sr := by
    rw [statsResponseOf, hfl] at hsr; exact hsr
  subst hflE
  rcases hrpp : retryPhase cfg request sr data failed with ⟨rpE, nsf⟩
  have hrpE : rpE = .ok (fstats, n) := by
    rw [hrpp] at hrp; exact hrp
  subst hrpE
  have hfinal : finalStatsOf cfg request = .ok fstats := by
    rw [finalStatsOf, retryPhaseOf]
    simp [hsr, hgd, hsc, hrpp, Except.map]
  cases hcond : (download_required cfg request || decide (0 < n)) with
  | true =>
    have hsd : (single_download cfg request).2.respWrite = some (p, fstats) := by
      simp [single_download, hv, hs, hfl, hgd, hsc, hrpp, hcond, hp]
    refine ⟨?_, ?_⟩
    · rw [hsd]
      simp only [Option.isSome_some, true_iff]
      rcases Bool.or_eq_true_iff.1 hcond with h | h
      · exact Or.inl h
      · exact Or.inr (of_decide_eq_true h)
    · intro q v hqv
      rw [hsd] at hqv
      injection hqv with hqv
      injection hqv with hq hv'
      subst hq
      subst hv'
      exact ⟨rfl, hfinal⟩
  | false =>
    have hsd : (single_download cfg request).2.respWrite = none := by
      simp [single_download, hv, hs, hfl, hgd, hsc, hrpp, hcond]
    refine ⟨?_, ?_⟩
    · rw [hsd]
      simp only [Option.isSome_none, Bool.false_eq_true, false_iff]
      simp only [Bool.or_eq_false_iff, decide_eq_false_iff_not] at hcond
      rintro (h | h)
      · rw [hcond.1] at h
        exact absurd h (by simp)
      · exact hcond.2 h
    · intro q v hqv
      rw [hsd] at hqv
      exact absurd hqv (by simp)

/-- A cached, failure-free run of `_single_download`: no fetch, one
read, at most the descriptor write, and no response write. -/
theorem single_download_cached_clean (cfg : Config) (request : Request) (p : String)
    (resp : JValue)
    (hrd : cfg.redownload = false) (hp : request.response_path = some p)
    (hfs : cfg.fs p = some resp)
    (hnf : ∀ data, getData resp = .ok data →
      ∀ si ∈ data, has_retriable_error si = some false) :
    single_download cfg request =
      if request.valid = false then (.error .invalidRequest, noEffects)
      else if (request.save_response || request.return_data) = false then
        (.ok none, noEffects)
      else
        match getData resp with
        | .error e => (.error e, ⟨0, 1, none, none⟩)
        | .ok _ =>
          ((if request.return_data then .ok (some resp) else .ok none),
           ⟨0, 1, descriptorWrite cfg request, none⟩) := by
  have hdr : download_required cfg request = false := by
    simp [download_required, hrd, hp, hfs]
  have hfl : fetchOrLoad cfg request = (.ok resp, 0, 1) := by
    simp [fetchOrLoad, hdr, hp, hfs]
  cases hv : request.valid with
  | false => simp [single_download, hv]
  | true =>
    cases hpur : (request.save_response || request.return_data) with
    | false => simp [single_download, hv, hpur]
    | true =>
      rcases hgd : getData resp with e | data
      · simp [single_download, hv, hpur, hfl, hgd]
      · have hscan : scanFailures data 0 = .ok [] :=
          scanFailures_all_false data 0 (hnf data hgd)
        simp [single_download, hv, hpur, hfl, hgd, hscan, retryPhase, hdr]

theorem descriptorWrite_path (cfg : Config) (request : Request) (q : String) (v : JValue)
    (h : descriptorWrite cfg request = some (q, v)) : request.request_path = some q := by
  cases hrp : request.request_path with
  | none => simp [descriptorWrite, hrp] at h
  | some rp =>
    simp only [descriptorWrite, hrp] at h
    by_cases hc : (request.save_response && (cfg.redownload || !(cfg.fs rp).isSome)) = true
    · rw [if_pos hc] at h
      injection h with h
      injection h with h1 h2
      rw [h1]
    · rw [if_neg hc] at h
      exact absurd h (by simp)

/-- C7: with `redownload` unset, a configured response path, a present
cached file, and no retriable entry in it, `_single_download` performs no
network fetch at all and does not rewrite the response file. -/
theorem cached_clean_no_fetch_no_rewrite (cfg : Config) (request : Request)
    (p : String) (resp : JValue)
    (hrd : cfg.redownload = false) (hp : request.response_path = some p)
    (hfs : cfg.fs p = some resp)
    (hnf : ∀ data, getData resp = .ok data →
      ∀ si ∈ data, has_retriable_error si = some false) :
    (single_download cfg request).2.fetches = 0 ∧
    (single_download cfg request).2.respWrite = none := by
  rw [single_download_cached_clean cfg request p resp hrd hp hfs hnf]
  cases hv : request.valid with
  | false => simp [hv, noEffects]
  | true =>
    cases hpur : (request.save_response || request.return_data) with
    | false => simp [hv, hpur, noEffects]
    | true =>
      rcases hgd : getData resp with e | data <;> simp [hv, hpur, hgd, noEffects]

/-- Witness for C7: a clean cached response is neither re-fetched nor
rewritten. -/
theorem cached_clean_no_fetch_no_rewrite_witness :
    (single_download cleanConfig cachedRequest).2.fetches = 0 ∧
    (single_download cleanConfig cachedRequest).2.respWrite = none :=
  cached_clean_no_fetch_no_rewrite cleanConfig cachedRequest "response.json" okResponse
    rfl rfl rfl
    (fun data hdata si hsi => by
      rw [show getData okResponse = Except.ok [JValue.obj []] from rfl] at hdata
      injection hdata with hdata
      subst hdata
      simp only [List.mem_singleton] at hsi
      subst hsi
      rfl)

/-- C8: a second `_single_download` call with `redownload` unset on a
clean cached response returns the same data as the first and performs no
additional writes (neither the descriptor nor the response file). -/
theorem second_call_idempotent (cfg : Config) (request : Request) (p : String)
    (resp : JValue)
    (hrd : cfg.redownload = false) (hp : request.response_path = some p)
    (hfs : cfg.fs p = some resp)
    (hnf : ∀ data, getData resp = .ok data →
      ∀ si ∈ data, has_retriable_error si = some false)
    (hdist : request.request_path ≠ some p) :
    (single_download (secondRun cfg request) request).1 =
        (single_download cfg request).1 ∧
    (single_download (secondRun cfg request) request).2.descWrite = none ∧
    (single_download (secondRun cfg request) request).2.respWrite = none := by
  have h1 := single_download_cached_clean cfg request p resp hrd hp hfs hnf
  cases hv : request.valid with
  | false =>
    have he : single_download cfg request = (.error .invalidRequest, noEffects) := by
      rw [h1]; simp [hv]
    have he2 : single_download (secondRun cfg request) request =
        (.error .invalidRequest, noEffects) := by
      simp [single_download, hv]
    rw [he, he2]
    exact ⟨rfl, rfl, rfl⟩
  | true =>
    cases hpur : (request.save_response || request.return_data) with
    | false =>
      have he : single_download cfg request = (.ok none, noEffects) := by
        rw [h1]; simp [hv, hpur]
      have he2 : single_download (secondRun cfg request) request =
          (.ok none, noEffects) := by
        simp [single_download, hv, hpur]
      rw [he, he2]
      exact ⟨rfl, rfl, rfl⟩
    | true =>
      rcases hgd : getData resp with e | data
      · have he : single_download cfg request = (.error e, ⟨0, 1, none, none⟩) := by
          rw [h1]; simp [hv, hpur, hgd]
        have hfs2 : (secondRun cfg request).fs = cfg.fs := by
          rw [secondRun, he]
          rfl
        have h2 := single_download_cached_clean (secondRun cfg request) request p resp
          hrd hp (by rw [hfs2]; exact hfs) hnf
        have he2 : single_download (secondRun cfg request) request =
            (.error e, ⟨0, 1, none, none⟩) := by
          rw [h2]; simp [hv, hpur, hgd]
        rw [he, he2]
        exact ⟨rfl, rfl, rfl⟩
      · have he : single_download cfg request =
            ((if request.return_data then .ok (some resp) else .ok none),
             ⟨0, 1, descriptorWrite cfg request, none⟩) := by
          rw [h1]; simp [hv, hpur, hgd]
        have hfs2 : (secondRun cfg request).fs =
            applyWrite cfg.fs (descriptorWrite cfg request) := by
          rw [secondRun, he]
          rfl
        have hfs2p : (secondRun cfg request).fs p = some resp := by
          rw [hfs2]
          cases hdw : descriptorWrite cfg request with
          | none => simpa [applyWrite] using hfs
          | some qv =>
            obtain ⟨q, v⟩ := qv
            have hq := descriptorWrite_path cfg request q v hdw
            have hne : p ≠ q := fun hpq => hdist (by rw [hpq]; exact hq)
            have hred : applyWrite cfg.fs (some (q, v)) p = cfg.fs p := by
              simp [applyWrite, hne]
            rw [hred]
            exact hfs
        have h2 := single_download_cached_clean (secondRun cfg request) request p resp
          hrd hp hfs2p hnf
        have he2 : single_download (secondRun cfg request) request =
            ((if request.return_data then .ok (some resp) else .ok none),
             ⟨0, 1, descriptorWrite (secondRun cfg request) request, none⟩) := by
          rw [h2]; simp [hv, hpur, hgd]
        have hdw2 : descriptorWrite (secondRun cfg request) request = none := by
          cases hrp : request.request_path with
          | none => simp [descriptorWrite, hrp]
          | some rp =>
            cases hsv : request.save_response with
            | false => simp [descriptorWrite, hrp, hsv]
            | true =>
              have hsome : ((secondRun cfg request).fs rp).isSome = true := by
                rw [hfs2]
                cases hex : (cfg.fs rp).isSome with
                | true =>
                  cases hdw : descriptorWrite cfg request with
                  | none => simpa [applyWrite] using hex
                  | some qv =>
                    obtain ⟨q, v⟩ := qv
                    by_cases hqq : rp = q
                    · subst hqq
                      simp [applyWrite]
                    · simp [applyWrite, hqq]
                      exact hex
                | false =>
                  have hdw : descriptorWrite cfg request =
                      some (rp, request.request_info) := by
                    simp [descriptorWrite, hrp, hsv, hrd, hex]
                  rw [hdw]
                  simp [applyWrite]
              have hrd2 : (secondRun cfg request).redownload = false := hrd
              simp [descriptorWrite, hrp, hsv, hrd2, hsome]
        refine ⟨?_, ?_, ?_⟩
        · rw [he, he2]
        · rw [he2]
          exact hdw2
        · rw [he2]

/-- Witness for C8: the second call on the clean cached scenario. -/
theorem second_call_idempotent_witness :
    (single_download (secondRun cleanConfig cachedRequest) cachedRequest).1 =
        (single_download cleanConfig cachedRequest).1 ∧
    (single_download (secondRun cleanConfig cachedRequest) cachedRequest).2.descWrite =
        none ∧
    (single_download (secondRun cleanConfig cachedRequest) cachedRequest).2.respWrite =
        none :=
  second_call_idempotent cleanConfig cachedRequest "response.json" okResponse
    rfl rfl rfl
    (fun data hdata si hsi => by
      rw [show getData okResponse = Except.ok [JValue.obj []] from rfl] at hdata
      injection hdata with hdata
      subst hdata
      simp only [List.mem_singleton] at hsi
      subst hsi
      rfl)
    (fun h => by simp [cachedRequest, sampleRequest] at h)

/-- Witness for C2 on the spec's scenario: cached response with one
`TIMEOUT` failure, its retry succeeds, so the response is persisted even
though no download was required. -/
theorem response_write_iff_improved_witness :
    (single_download retryConfig cachedRequest).2.respWrite.isSome = true :=
  (response_write_iff_improved retryConfig cachedRequest "response.json" 1
    rfl rfl rfl rfl).1.mpr (Or.inr (by decide))

end StatClient
